import Mathlib

/-!
Verification development for the Kalshi market data collector.

The repository has three Python files:
  * `app/market_collector.py` — fetches paginated event listings, flattens
    nested event/market records into a tabular form (pandas), and reconciles
    that table against a persisted SQLite store (insert pass, closure pass,
    summary).
  * `database_client.py` — the store client: table creation, idempotent
    column migration, `get_existing_market_tickers`, `get_market_status_map`,
    `append_dataframe`, `delete_market`.
  * `app/main.py` — entry point (no logic).

This file shallowly embeds those parts.  A pandas data frame is modelled as a
list of rows; for the flattener a row is an association list from column name
to optional string value (a missing column and a null cell both read back as
`none`, matching how NaN cells behave in the source's joins and filters).  For
the reconciliation engine a row is a structure exposing the two columns the
engine reads (`market_ticker`, `market_status`), the column it writes
(`market_status_change_time`) and the remaining columns opaquely.  Store rows
are the same with every field nullable, since the SQLite table declares every
column as nullable TEXT.  Wall-clock reads (`datetime.now(timezone.utc)`) are
modelled by an external `clock : Nat → String` indexed by how many closures
have already been stamped this cycle.  Database calls are recorded in an
explicit trace (`DBOp`) so that "operation X was never invoked" is expressible.
-/

namespace Kalshi

/-- Decidable equality of `Except` values, for evaluating the error-path
models on concrete inputs. -/
instance instDecEqExcept {ε α : Type} [DecidableEq ε] [DecidableEq α] :
    DecidableEq (Except ε α)
  | Except.error a, Except.error b =>
    if h : a = b then isTrue (by rw [h]) else isFalse (by intro hc; cases hc; exact h rfl)
  | Except.error _, Except.ok _ => isFalse (by intro hc; cases hc)
  | Except.ok _, Except.error _ => isFalse (by intro hc; cases hc)
  | Except.ok a, Except.ok b =>
    if h : a = b then isTrue (by rw [h]) else isFalse (by intro hc; cases hc; exact h rfl)

/-- A data-frame row for the flattener: column name to optional cell value. -/
abbrev Row := List (String × Option String)

/-- One nested market object as returned by the API: its raw attribute
columns (e.g. `ticker`, `status`, `rules_primary`, possibly
`custom_strike_*` fields). -/
structure MarketRecord where
  attrs : Row
deriving DecidableEq

/-- One event object as returned by the API: the three fields pulled out as
merge metadata by `pd.json_normalize` (`event_ticker`, `series_ticker`,
`title`), its remaining top-level columns (e.g. `sub_title`), and the nested
market list. -/
structure EventRecord where
  event_ticker : String
  series_ticker : String
  title : String
  attrs : Row
  markets : List MarketRecord
deriving DecidableEq

/-- Character-list test that `pre` is a leading segment of `s`. -/
def listIsPre : List Char → List Char → Bool
  | [], _ => true
  | _ :: _, [] => false
  | a :: as, b :: bs => (a == b) && listIsPre as bs

/-- `strStarts s pre` embeds `s.startswith(pre)` (used by the source through
`df.columns.str.startswith`). -/
def strStarts (s pre : String) : Bool := listIsPre pre.data s.data

/-- Rename every column of a row with a fixed leading string, as
`pd.json_normalize`'s `record_prefix='market_'` does. -/
def addPre (pre : String) (r : Row) : Row := r.map (fun p => (pre ++ p.1, p.2))

/-- Read a column of a row: first matching column name wins, absent column
reads as `none` (NaN). -/
def colVal (r : Row) (c : String) : Option String :=
  match r.find? (fun p => p.1 == c) with
  | some p => p.2
  | none => none

/-- One row of `markets_df` (`pd.json_normalize(events, record_path=['markets'],
meta=['event_ticker','series_ticker','title'], record_prefix='market_',
meta_prefix='event_')`): the market's columns under the `market_` name
transform, followed by the three meta columns from its parent event. -/
def marketRow (e : EventRecord) (m : MarketRecord) : Row :=
  addPre "market_" m.attrs ++
    [("event_event_ticker", some e.event_ticker),
     ("event_series_ticker", some e.series_ticker),
     ("event_title", some e.title)]

/-- `markets_df`: one row per nested market, in event order. -/
def markets_df (events : List EventRecord) : List Row :=
  events.flatMap (fun e => e.markets.map (marketRow e))

/-- One row of `events_df` (`pd.DataFrame(events)`): the raw event object as
columns.  The nested `markets` list is an opaque non-text cell, modelled as a
`markets` column holding `none`; it is dropped later in the pipeline. -/
def eventRow (e : EventRecord) : Row :=
  ("event_ticker", some e.event_ticker) :: ("series_ticker", some e.series_ticker) ::
    ("title", some e.title) :: (e.attrs ++ [("markets", none)])

/-- `events_df`: one row per event. -/
def events_df (events : List EventRecord) : List Row := events.map eventRow

/-- The column names appearing in a frame (used to null-fill unmatched rows of
a left join). -/
def rowCols (rs : List Row) : List String :=
  ((rs.map (fun r => r.map (·.1))).flatten).dedup

/-- A row of null cells over the given columns. -/
def nullRow (cols : List String) : Row := cols.map (fun c => (c, none))

/-- `markets_df.merge(events_df, left_on='event_event_ticker',
right_on='event_ticker', how='left')`: each left row is combined with every
right row whose `event_ticker` equals (and is non-null, as NaN keys never
match) the left row's `event_event_ticker`; a left row with no match survives
with the right-side columns null.  Column-name collision suffixes are not
modelled: with the `market_`/`event_` name transforms of `marketRow` the two
frames share no column name. -/
def mergeLeft (left right : List Row) : List Row :=
  left.flatMap (fun l =>
    match right.filter (fun r =>
        (colVal l "event_event_ticker").isSome &&
        (colVal r "event_ticker" == colVal l "event_event_ticker")) with
    | [] => [l ++ nullRow (rowCols right)]
    | ms => ms.map (fun r => l ++ r))

/-- The four columns moved to the front by the reorder step. -/
def frontCols : List String :=
  ["title", "sub_title", "market_rules_primary", "market_rules_secondary"]

/-- The per-row effect of `df = df[cols]` with `cols` the four readability
columns followed by the rest in frame order: each selected front column is
present in every output row (reading NaN where the row has no value), the
remaining columns keep their order.  The label check pandas performs on the
frame as a whole — `df[cols]` raises a KeyError when one of the four labels
is absent from `df.columns` — is `hasFrontCols` below. -/
def reorderRow (r : Row) : Row :=
  frontCols.map (fun c => (c, colVal r c)) ++
    r.filter (fun p => !(frontCols.contains p.1))

/-- The label check of `df = df[cols]`: every one of the four front columns
must be a column of the frame, else pandas raises a KeyError. -/
def hasFrontCols (df : List Row) : Bool :=
  frontCols.all (fun c => (rowCols df).contains c)

/-- `df.loc[:, ~df.columns.str.startswith('market_custom_strike')]`. -/
def dropStrike (r : Row) : Row :=
  r.filter (fun p => !(strStarts p.1 "market_custom_strike"))

/-- `df.drop(columns=['markets'], errors='ignore')`. -/
def dropMarketsCol (r : Row) : Row := r.filter (fun p => !(p.1 == "markets"))

/-- The flattening pipeline of `MarketCollector.get_events_dataframe`, from
the accumulated event list to the working frame handed to the reconciliation
logic: normalize, merge, reorder (raising a KeyError, modelled as the error
case, when one of the four front columns is missing from the merged frame),
drop custom-strike columns, drop the raw nested `markets` column, add the
`market_status_change_time` placeholder. -/
def flattenEvents (events : List EventRecord) : Except String (List Row) :=
  let df := mergeLeft (markets_df events) (events_df events)
  if hasFrontCols df then
    Except.ok ((((df.map reorderRow).map dropStrike).map dropMarketsCol).map
      (fun r => r ++ [("market_status_change_time", none)]))
  else
    Except.error "KeyError: missing reorder column"

/-- The row list of a successful flattening (empty on the KeyError path);
used by the witnesses to name the produced table. -/
def rowsOf : Except String (List Row) → List Row
  | Except.ok rs => rs
  | Except.error _ => []

/-- `sum(len(event.markets) for event in input)`. -/
def sumMarkets (events : List EventRecord) : Nat :=
  (events.map (fun e => e.markets.length)).sum

/-- A working-frame row as read by the reconciliation engine: the
`market_ticker` and `market_status` cells (strings for API data), the
`market_status_change_time` cell it may write, and all other columns. -/
structure FlatRow where
  market_ticker : String
  market_status : String
  market_status_change_time : Option String
  other : List (String × Option String)
deriving DecidableEq

/-- A persisted row of the `markets` table; every column is nullable TEXT. -/
structure StoreRow where
  market_ticker : Option String
  market_status : Option String
  market_status_change_time : Option String
  other : List (String × Option String)
deriving DecidableEq

/-- The `markets` table, as a list of rows in insertion order. -/
abbrev Store := List StoreRow

/-- How `df.to_sql(..., if_exists="append")` persists a working-frame row. -/
def toStoreRow (r : FlatRow) : StoreRow :=
  ⟨some r.market_ticker, some r.market_status, r.market_status_change_time, r.other⟩

/-- `DatabaseClient.get_existing_market_tickers`:
`set(df["market_ticker"].dropna().unique())` — the distinct non-null ticker
values, as a duplicate-free list. -/
def get_existing_market_tickers (store : Store) : List String :=
  (store.filterMap (·.market_ticker)).dedup

/-- `DatabaseClient.get_market_status_map` followed by `.get(t)`:
`dict(zip(df["market_ticker"], df["market_status"]))` maps each ticker to the
status of the last stored row carrying it (later zip pairs overwrite earlier
ones); a string key never matches a null ticker, and an absent key reads as
`none`. -/
def get_market_status_map (store : Store) (t : String) : Option (Option String) :=
  ((store.filter (fun s => s.market_ticker == some t)).getLast?).map (·.market_status)

/-- `MarketCollector.CLOSED_STATUSES = {'finalized','inactive','closed','settled'}`. -/
def CLOSED_STATUSES : List String := ["finalized", "inactive", "closed", "settled"]

/-- A database call made by the engine during one cycle. -/
inductive DBOp where
  | append (rows : List StoreRow)
  | delete (ticker : String)
deriving DecidableEq

/-- Effect of `DELETE FROM markets WHERE market_ticker = :ticker` on the
table: SQL equality never matches NULL, so null-ticker rows survive. -/
def deleteRows (t : String) (store : Store) : Store :=
  store.filter (fun s => !(s.market_ticker == some t))

/-- The insert-pass row filter
`~df['market_ticker'].isin(existing) & df['market_status'].eq('active')`. -/
def insertCond (existing : List String) (r : FlatRow) : Prop :=
  r.market_ticker ∉ existing ∧ r.market_status = "active"

instance instDecidableInsertCond (existing : List String) (r : FlatRow) :
    Decidable (insertCond existing r) := by
  unfold insertCond; infer_instance

/-- Result of the insert pass: the store afterwards, `opened_count`, and the
database calls made. -/
structure InsertResult where
  store : Store
  opened_count : Nat
  ops : List DBOp
deriving DecidableEq

/-- The insert pass of `get_events_dataframe` (lines 102–107): select the new
active rows, and only when there is at least one, append them to the store in
one bulk call. -/
def insertPass (existing : List String) (df : List FlatRow) (store : Store) : InsertResult :=
  let new_active := df.filter (fun r => decide (insertCond existing r))
  let opened_count := new_active.length
  if opened_count ≠ 0 then
    ⟨store ++ new_active.map toStoreRow, opened_count, [DBOp.append (new_active.map toStoreRow)]⟩
  else
    ⟨store, opened_count, []⟩

/-- The closure-pass row condition: `ticker in existing and
status_map.get(ticker) == 'active' and new_status in CLOSED_STATUSES`. -/
def closureCond (existing : List String) (smap : String → Option (Option String))
    (r : FlatRow) : Prop :=
  r.market_ticker ∈ existing ∧ smap r.market_ticker = some (some "active") ∧
    r.market_status ∈ CLOSED_STATUSES

instance instDecidableClosureCond (existing : List String)
    (smap : String → Option (Option String)) (r : FlatRow) :
    Decidable (closureCond existing smap r) := by
  unfold closureCond; infer_instance

/-- `df.loc[df['market_ticker'] == ticker, 'market_status_change_time'] = time`
applied to one row. -/
def stampRow (t : String) (time : String) (r : FlatRow) : FlatRow :=
  if r.market_ticker = t then { r with market_status_change_time := some time } else r

/-- Running state of the closure pass: the working frame, the store, the
`closed_count` so far, and the database calls made so far. -/
structure ClosureState where
  df : List FlatRow
  store : Store
  closed_count : Nat
  ops : List DBOp
deriving DecidableEq

/-- The closure pass of `get_events_dataframe` (lines 110–118): iterate the
working frame; each row meeting `closureCond` stamps the change time (one
fresh clock read per closure) onto every working-frame row with its ticker,
deletes the ticker from the store, and increments `closed_count`. -/
def closurePass (existing : List String) (smap : String → Option (Option String))
    (clock : Nat → String) : List FlatRow → ClosureState → ClosureState
  | [], st => st
  | row :: rest, st =>
    if closureCond existing smap row then
      closurePass existing smap clock rest
        { df := st.df.map (stampRow row.market_ticker (clock st.closed_count)),
          store := deleteRows row.market_ticker st.store,
          closed_count := st.closed_count + 1,
          ops := st.ops ++ [DBOp.delete row.market_ticker] }
    else
      closurePass existing smap clock rest st

/-- Outcome of one reconciliation cycle. -/
structure CycleResult where
  df : List FlatRow
  store : Store
  opened_count : Nat
  closed_count : Nat
  total_active : Nat
  ops : List DBOp
deriving DecidableEq

/-- One reconciliation cycle of `get_events_dataframe` after flattening: read
the existing-ticker set and the status map from the store (the database file
exists by this point, the client's init having created the table), run the
insert pass, then the closure pass, then re-read the store's ticker set for
`total_active`. -/
def reconcile (df : List FlatRow) (store : Store) (clock : Nat → String) : CycleResult :=
  let existing := get_existing_market_tickers store
  let smap := get_market_status_map store
  let ins := insertPass existing df store
  let post := closurePass existing smap clock df ⟨df, ins.store, 0, []⟩
  { df := post.df, store := post.store, opened_count := ins.opened_count,
    closed_count := post.closed_count,
    total_active := (get_existing_market_tickers post.store).length,
    ops := ins.ops ++ post.ops }

/-- `DatabaseClient.append_dataframe`: the underlying `to_sql` outcome is
either success or a database error; on error the client logs and re-raises the
same error.  The returned pair is (result, log lines emitted). -/
def append_dataframe (n : Nat) (outcome : Except String Unit) :
    Except String Unit × List String :=
  match outcome with
  | Except.ok _ => (Except.ok (), ["Inserted " ++ toString n ++ " new rows into markets."])
  | Except.error e => (Except.error e, ["DB insert failed."])

/-- `DatabaseClient.delete_market`: on success the matching rows are removed
(a no-match DELETE succeeds as a no-op); on a database error the client logs
and re-raises the same error. -/
def delete_market (t : String) (store : Store) (outcome : Except String Unit) :
    Except String Store × List String :=
  match outcome with
  | Except.ok _ => (Except.ok (deleteRows t store), ["Deleted market " ++ t ++ " from database."])
  | Except.error e => (Except.error e, ["Failed to delete market " ++ t ++ "."])

/-- `DatabaseClient._ensure_table`: when the table is missing it is created
from the schema via `to_sql`, with an informational log line after success.
The call sits in no try/except block, so a database failure propagates to the
caller with no log line emitted. -/
def ensure_table (hasTable : Bool) (outcome : Except String Unit) :
    Except String Unit × List String :=
  if hasTable then (Except.ok (), [])
  else
    match outcome with
    | Except.ok _ => (Except.ok (), ["Created table markets."])
    | Except.error e => (Except.error e, [])

/-- `DatabaseClient._ensure_status_change_column`: if the column is already
present nothing happens; otherwise the ALTER TABLE either succeeds or its
database error is logged and re-raised. -/
def ensure_status_change_column (cols : List String) (outcome : Except String Unit) :
    Except String (List String) × List String :=
  if "market_status_change_time" ∈ cols then (Except.ok cols, [])
  else
    match outcome with
    | Except.ok _ =>
        (Except.ok (cols ++ ["market_status_change_time"]), ["Added column market_status_change_time."])
    | Except.error e => (Except.error e, ["Failed to add status change column."])

/-! ### Helper lemmas about the two passes -/

/-- The insert pass appends exactly the selected rows (and nothing when the
selection is empty). -/
theorem insertPass_store (existing : List String) (df : List FlatRow) (store : Store) :
    (insertPass existing df store).store =
      store ++ (df.filter (fun r => decide (insertCond existing r))).map toStoreRow := by
  unfold insertPass
  dsimp only
  split
  · rfl
  · next h =>
    rw [not_ne_iff, List.length_eq_zero] at h
    simp [h]

/-- `opened_count` is the length of the selection. -/
theorem insertPass_count (existing : List String) (df : List FlatRow) (store : Store) :
    (insertPass existing df store).opened_count =
      (df.filter (fun r => decide (insertCond existing r))).length := by
  unfold insertPass
  dsimp only
  split <;> rfl

/-- Every database call of the insert pass is a bulk append. -/
theorem insertPass_ops (existing : List String) (df : List FlatRow) (store : Store) :
    ∀ op ∈ (insertPass existing df store).ops, ∃ rows, op = DBOp.append rows := by
  unfold insertPass
  dsimp only
  split <;> simp

/-- With an empty selection the insert pass is a complete no-op. -/
theorem insertPass_empty (existing : List String) (df : List FlatRow) (store : Store)
    (h : df.filter (fun r => decide (insertCond existing r)) = []) :
    insertPass existing df store = ⟨store, 0, []⟩ := by
  unfold insertPass
  dsimp only
  simp [h]

/-- The closure pass increments `closed_count` once per row meeting the
closure condition. -/
theorem closurePass_count (existing : List String) (smap : String → Option (Option String))
    (clock : Nat → String) (rows : List FlatRow) (st : ClosureState) :
    (closurePass existing smap clock rows st).closed_count =
      st.closed_count + (rows.filter (fun r => decide (closureCond existing smap r))).length := by
  induction rows generalizing st with
  | nil => simp [closurePass]
  | cons row rest ih =>
    by_cases h : closureCond existing smap row
    · rw [closurePass, if_pos h, ih, List.filter_cons_of_pos (by simpa using h)]
      simp
      omega
    · rw [closurePass, if_neg h, ih, List.filter_cons_of_neg (by simpa using h)]

/-- Membership in the store left by the closure pass: a row survives exactly
when it was there before and no processed row both meets the closure
condition and carries its ticker. -/
theorem closurePass_store_mem (existing : List String) (smap : String → Option (Option String))
    (clock : Nat → String) (rows : List FlatRow) (st : ClosureState) (s : StoreRow) :
    s ∈ (closurePass existing smap clock rows st).store ↔
      s ∈ st.store ∧ ∀ r ∈ rows, closureCond existing smap r →
        s.market_ticker ≠ some r.market_ticker := by
  induction rows generalizing st with
  | nil => simp [closurePass]
  | cons row rest ih =>
    by_cases h : closureCond existing smap row
    · rw [closurePass, if_pos h, ih]
      simp only [deleteRows, List.mem_filter, Bool.not_eq_true', beq_eq_false_iff_ne,
        List.forall_mem_cons]
      constructor
      · rintro ⟨⟨h1, h2⟩, h3⟩
        exact ⟨h1, fun _ => h2, h3⟩
      · rintro ⟨h1, h2, h3⟩
        exact ⟨⟨h1, h2 h⟩, h3⟩
    · rw [closurePass, if_neg h, ih]
      simp only [List.forall_mem_cons]
      constructor
      · rintro ⟨h1, h2⟩
        exact ⟨h1, fun hc => absurd hc h, h2⟩
      · rintro ⟨h1, _, h2⟩
        exact ⟨h1, h2⟩

/-- Stamping preservation: once every working-frame row with ticker `t`
carries a clock value, the rest of the closure pass keeps it so. -/
theorem closurePass_df_pre (existing : List String) (smap : String → Option (Option String))
    (clock : Nat → String) (rows : List FlatRow) (st : ClosureState) (t : String)
    (h : ∀ r ∈ st.df, r.market_ticker = t → ∃ k, r.market_status_change_time = some (clock k)) :
    ∀ r ∈ (closurePass existing smap clock rows st).df, r.market_ticker = t →
      ∃ k, r.market_status_change_time = some (clock k) := by
  induction rows generalizing st with
  | nil => simpa [closurePass] using h
  | cons row rest ih =>
    by_cases hc : closureCond existing smap row
    · rw [closurePass, if_pos hc]
      apply ih
      intro r hr hrt
      rcases List.mem_map.mp hr with ⟨r0, hr0, rfl⟩
      by_cases he : r0.market_ticker = row.market_ticker
      · exact ⟨st.closed_count, by simp [stampRow, he]⟩
      · rw [stampRow, if_neg he] at hrt ⊢
        exact h r0 hr0 hrt
    · rw [closurePass, if_neg hc]
      exact ih st h

/-- After the closure pass, every working-frame row sharing a ticker with a
row that met the closure condition carries a clock value in its
status-change-time column. -/
theorem closurePass_stamps (existing : List String) (smap : String → Option (Option String))
    (clock : Nat → String) (rows : List FlatRow) (st : ClosureState) :
    ∀ r ∈ rows, closureCond existing smap r →
      ∀ r2 ∈ (closurePass existing smap clock rows st).df, r2.market_ticker = r.market_ticker →
        ∃ k, r2.market_status_change_time = some (clock k) := by
  induction rows generalizing st with
  | nil => simp
  | cons row rest ih =>
    intro r hr hcr r2 h2 ht
    rcases List.mem_cons.mp hr with rfl | hr2
    · rw [closurePass, if_pos hcr] at h2
      refine closurePass_df_pre existing smap clock rest _ r.market_ticker ?_ r2 h2 ht
      intro r0 hr0 hrt0
      rcases List.mem_map.mp hr0 with ⟨r1, _, rfl⟩
      by_cases he : r1.market_ticker = r.market_ticker
      · exact ⟨st.closed_count, by simp [stampRow, he]⟩
      · rw [stampRow, if_neg he] at hrt0
        exact absurd hrt0 he
    · by_cases hc : closureCond existing smap row
      · rw [closurePass, if_pos hc] at h2
        exact ih _ r hr2 hcr r2 h2 ht
      · rw [closurePass, if_neg hc] at h2
        exact ih st r hr2 hcr r2 h2 ht

/-- Every database call added by the closure pass is a delete. -/
theorem closurePass_ops (existing : List String) (smap : String → Option (Option String))
    (clock : Nat → String) (rows : List FlatRow) (st : ClosureState) :
    ∀ op ∈ (closurePass existing smap clock rows st).ops,
      op ∈ st.ops ∨ ∃ t, op = DBOp.delete t := by
  induction rows generalizing st with
  | nil => intro op h; rw [closurePass] at h; exact Or.inl h
  | cons row rest ih =>
    by_cases hc : closureCond existing smap row
    · rw [closurePass, if_pos hc]
      intro op hop
      rcases ih _ op hop with h | h
      · rcases List.mem_append.mp h with h | h
        · exact Or.inl h
        · refine Or.inr ⟨row.market_ticker, ?_⟩
          simpa using h
      · exact Or.inr h
    · rw [closurePass, if_neg hc]
      exact ih st

/-! ### Concrete cycle used by the witnesses: the store holds ticker `T1`
with status `active`, the fetch returns `T1` with status `settled`. -/

/-- Example clock: a fixed ISO-8601 UTC timestamp for every read. -/
def exClock : Nat → String := fun _ => "2026-10-12T00:00:00+00:00"

/-- Example working frame: one row, ticker `T1`, status `settled`. -/
def exDf : List FlatRow := [⟨"T1", "settled", none, []⟩]

/-- Example store: one row, ticker `T1`, status `active`. -/
def exStore : Store := [⟨some "T1", some "active", none, []⟩]

/-! ### Claims about the reconciliation engine -/

/-- Claim C1: in one reconciliation cycle, a working-frame row is appended to
the store if and only if its market ticker is not in the existing-ticker set
read from the store before any mutation and its current status equals exactly
"active"; `opened_count` equals the number of such rows. -/
theorem insert_pass_selectivity (df : List FlatRow) (store : Store) (clock : Nat → String) :
    (reconcile df store clock).opened_count =
      (df.filter (fun r => decide (insertCond (get_existing_market_tickers store) r))).length ∧
    (insertPass (get_existing_market_tickers store) df store).store =
      store ++ (df.filter (fun r =>
        decide (insertCond (get_existing_market_tickers store) r))).map toStoreRow ∧
    ∀ r : FlatRow,
      r ∈ df.filter (fun r => decide (insertCond (get_existing_market_tickers store) r)) ↔
        r ∈ df ∧ r.market_ticker ∉ get_existing_market_tickers store ∧
          r.market_status = "active" := by
  refine ⟨?_, insertPass_store _ _ _, ?_⟩
  · simp only [reconcile]
    exact insertPass_count _ _ _
  · intro r
    simp [List.mem_filter, insertCond, and_assoc]

/-- Claim C2: in one reconciliation cycle, a store row is deleted exactly when
some fetched row carries its ticker, that ticker was in the pre-cycle
existing-ticker set with last-stored status exactly "active", and the fetched
status is in the CLOSED set; `closed_count` counts the fetched rows meeting
that condition; and every working-frame row sharing a ticker with such a row
gets a clock timestamp stamped into its in-memory status-change-time column. -/
theorem closure_pass_selectivity (df : List FlatRow) (store : Store) (clock : Nat → String) :
    (reconcile df store clock).closed_count =
      (df.filter (fun r => decide (closureCond (get_existing_market_tickers store)
        (get_market_status_map store) r))).length ∧
    (∀ s : StoreRow, s ∈ (reconcile df store clock).store ↔
      s ∈ (insertPass (get_existing_market_tickers store) df store).store ∧
        ∀ r ∈ df, closureCond (get_existing_market_tickers store)
            (get_market_status_map store) r →
          s.market_ticker ≠ some r.market_ticker) ∧
    ∀ r ∈ df, closureCond (get_existing_market_tickers store)
        (get_market_status_map store) r →
      ∀ r2 ∈ (reconcile df store clock).df, r2.market_ticker = r.market_ticker →
        ∃ k, r2.market_status_change_time = some (clock k) := by
  refine ⟨?_, ?_, ?_⟩
  · simp only [reconcile]
    rw [closurePass_count]
    simp
  · intro s
    simp only [reconcile]
    exact closurePass_store_mem _ _ _ _ _ _
  · intro r hr hc r2 h2 ht
    simp only [reconcile] at h2
    exact closurePass_stamps _ _ _ _ _ r hr hc r2 h2 ht

/-- Claim C4: when market tickers are unique across the cycle's rows, no
ticker is both appended to and deleted from the store within the cycle (the
insert condition requires the ticker to be absent from the pre-cycle set, the
closure condition requires it to be present); and the cycle's database-call
trace is all of the insert pass's appends followed by all of the closure
pass's deletes. -/
theorem two_pass_disjoint (df : List FlatRow) (store : Store) (clock : Nat → String)
    (_hnd : (df.map (·.market_ticker)).Nodup) :
    (∀ t : String,
      (∃ r ∈ df, insertCond (get_existing_market_tickers store) r ∧ r.market_ticker = t) →
        ¬ ∃ r ∈ df, closureCond (get_existing_market_tickers store)
            (get_market_status_map store) r ∧ r.market_ticker = t) ∧
    ∃ l1 l2, (reconcile df store clock).ops = l1 ++ l2 ∧
      (∀ op ∈ l1, ∃ rows, op = DBOp.append rows) ∧
      (∀ op ∈ l2, ∃ t, op = DBOp.delete t) := by
  constructor
  · rintro t ⟨r, _, hins, rfl⟩ ⟨r2, _, hcl, ht⟩
    exact hins.1 (ht ▸ hcl.1)
  · refine ⟨(insertPass (get_existing_market_tickers store) df store).ops,
      (closurePass (get_existing_market_tickers store) (get_market_status_map store) clock df
        ⟨df, (insertPass (get_existing_market_tickers store) df store).store, 0, []⟩).ops,
      rfl, insertPass_ops _ _ _, ?_⟩
    intro op hop
    rcases closurePass_ops _ _ _ _ _ op hop with h | h
    · cases h
    · exact h

/-- Claim C5: when the working frame enters the cycle with an empty
status-change-time column (as the flattener guarantees), the timestamp stamped
during the closure pass is never persisted: after the cycle the store holds no
row for any ticker the closure pass processed, and every store row either
predates the cycle or has an empty status-change-time column. -/
theorem stamp_not_persisted (df : List FlatRow) (store : Store) (clock : Nat → String)
    (h : ∀ r ∈ df, r.market_status_change_time = none) :
    (∀ r ∈ df, closureCond (get_existing_market_tickers store)
        (get_market_status_map store) r →
      ∀ s ∈ (reconcile df store clock).store, s.market_ticker ≠ some r.market_ticker) ∧
    ∀ s ∈ (reconcile df store clock).store,
      s ∈ store ∨ s.market_status_change_time = none := by
  constructor
  · intro r hr hc s hs
    simp only [reconcile] at hs
    exact (closurePass_store_mem _ _ _ _ _ _ |>.mp hs).2 r hr hc
  · intro s hs
    simp only [reconcile] at hs
    have hs1 := (closurePass_store_mem _ _ _ _ _ _ |>.mp hs).1
    rw [insertPass_store] at hs1
    rcases List.mem_append.mp hs1 with h1 | h1
    · exact Or.inl h1
    · rcases List.mem_map.mp h1 with ⟨r0, hr0, rfl⟩
      exact Or.inr (h r0 (List.mem_filter.mp hr0).1)

/-- Claim C9: `get_existing_market_tickers` returns the distinct non-null
ticker values of the store (a value appears once, and appears exactly when
some store row carries it as a non-null ticker), and the cycle's
`total_active` is the number of distinct non-null tickers in the post-cycle
store rather than its row count. -/
theorem existing_tickers_distinct (store : Store) :
    (get_existing_market_tickers store).Nodup ∧
    (∀ t : String, t ∈ get_existing_market_tickers store ↔
      ∃ s ∈ store, s.market_ticker = some t) ∧
    ∀ df clock, (reconcile df store clock).total_active =
      ((reconcile df store clock).store.filterMap (·.market_ticker)).toFinset.card := by
  refine ⟨List.nodup_dedup _, ?_, ?_⟩
  · intro t
    unfold get_existing_market_tickers
    rw [List.mem_dedup, List.mem_filterMap]
  · intro df clock
    simp only [reconcile, get_existing_market_tickers]
    rw [List.card_toFinset]

/-- Claim C10: when no row qualifies for insertion, the insert pass leaves the
store unchanged and makes no database call, and no append call occurs anywhere
in the cycle's trace. -/
theorem zero_opened_no_append (df : List FlatRow) (store : Store) (clock : Nat → String)
    (h : (reconcile df store clock).opened_count = 0) :
    (insertPass (get_existing_market_tickers store) df store).store = store ∧
    (insertPass (get_existing_market_tickers store) df store).ops = [] ∧
    ∀ rows : List StoreRow, DBOp.append rows ∉ (reconcile df store clock).ops := by
  simp only [reconcile] at h
  rw [insertPass_count, List.length_eq_zero] at h
  have he := insertPass_empty (get_existing_market_tickers store) df store h
  refine ⟨by rw [he], by rw [he], ?_⟩
  intro rows hmem
  simp only [reconcile, he] at hmem
  rw [List.nil_append] at hmem
  rcases closurePass_ops _ _ _ _ _ _ hmem with h2 | h2
  · cases h2
  · rcases h2 with ⟨t, h2⟩
    cases h2

/-! ### Claims about the store client's failure paths -/

/-- Claim C6 as stated is false on the code at a concrete input: a database
failure during table creation — `_ensure_table` is among the claim's cited
schema paths — is re-raised to the caller with no log line emitted at all. -/
theorem persistence_error_unlogged :
    (ensure_table false (Except.error "disk full")).1 = Except.error "disk full" ∧
    (ensure_table false (Except.error "disk full")).2 = [] := by
  decide

/-- Claim C6 (amended): bulk append, delete by ticker, and the
status-change-column migration each propagate the underlying database error
unchanged to the caller after emitting a log line; a table-creation failure
propagates unchanged but unlogged; and no path swallows an error: a
successful result is only possible when the underlying operation
succeeded. -/
theorem persistence_error_propagates (e : String) (n : Nat) (t : String) (store : Store)
    (cols : List String) (hc : "market_status_change_time" ∉ cols) :
    ((append_dataframe n (Except.error e)).1 = Except.error e ∧
      (append_dataframe n (Except.error e)).2 ≠ []) ∧
    ((delete_market t store (Except.error e)).1 = Except.error e ∧
      (delete_market t store (Except.error e)).2 ≠ []) ∧
    ((ensure_status_change_column cols (Except.error e)).1 = Except.error e ∧
      (ensure_status_change_column cols (Except.error e)).2 ≠ []) ∧
    ((ensure_table false (Except.error e)).1 = Except.error e ∧
      (ensure_table false (Except.error e)).2 = []) ∧
    (∀ o : Except String Unit, (append_dataframe n o).1 = Except.ok () → o = Except.ok ()) ∧
    (∀ o : Except String Unit, ∀ st2 : Store,
      (delete_market t store o).1 = Except.ok st2 → o = Except.ok ()) ∧
    (∀ o : Except String Unit, (ensure_table false o).1 = Except.ok () → o = Except.ok ()) := by
  refine ⟨⟨rfl, by simp [append_dataframe]⟩, ⟨rfl, by simp [delete_market]⟩, ?_,
    ⟨rfl, rfl⟩, ?_, ?_, ?_⟩
  · rw [ensure_status_change_column, if_neg hc]
    exact ⟨rfl, by simp⟩
  · intro o ho
    cases o with
    | ok u => rfl
    | error e2 => cases ho
  · intro o st2 ho
    cases o with
    | ok u => rfl
    | error e2 => cases ho
  · intro o ho
    cases o with
    | ok u => rfl
    | error e2 => cases ho

/-- Claim C7: deleting a ticker no store row carries is a successful no-op —
the store is returned unchanged — and `delete_market` only fails when the
underlying database operation fails, propagating that same error. -/
theorem delete_nonexistent_noop (t : String) (store : Store)
    (h : ∀ s ∈ store, s.market_ticker ≠ some t) :
    (delete_market t store (Except.ok ())).1 = Except.ok store ∧
    ∀ o : Except String Unit, ∀ e, (delete_market t store o).1 = Except.error e →
      o = Except.error e := by
  constructor
  · have : deleteRows t store = store := by
      apply List.filter_eq_self.mpr
      intro s hs
      simpa using h s hs
    simp [delete_market, this]
  · intro o e ho
    cases o with
    | ok u => cases ho
    | error e2 => cases ho; rfl

/-! ### Claims about the flattener -/

/-- A `market_`-renamed column name is never the meta column name
`event_event_ticker`. -/
theorem market_pre_ne (n : String) : ("market_" ++ n) ≠ "event_event_ticker" := by
  intro h
  have h2 : 'm' = 'e' := congrArg (fun s => s.data.headD ' ') h
  exact absurd h2 (by decide)

/-- Looking for the `event_event_ticker` column among the renamed market
columns finds nothing. -/
theorem find_addPre_none (attrs : Row) :
    (addPre "market_" attrs).find? (fun p => p.1 == "event_event_ticker") = none := by
  apply List.find?_eq_none.mpr
  intro p hp
  rcases List.mem_map.mp hp with ⟨q, _, rfl⟩
  simpa using market_pre_ne q.1

/-- A normalized market row reads back its parent event's ticker in the
`event_event_ticker` meta column. -/
theorem colVal_marketRow (e : EventRecord) (m : MarketRecord) :
    colVal (marketRow e m) "event_event_ticker" = some e.event_ticker := by
  unfold colVal marketRow
  rw [List.find?_append, find_addPre_none]
  simp [List.find?]

/-- An event row reads back its ticker in the `event_ticker` column. -/
theorem colVal_eventRow (e : EventRecord) :
    colVal (eventRow e) "event_ticker" = some e.event_ticker := by
  simp [colVal, eventRow, List.find?]

/-- With pairwise-distinct event tickers, exactly one event carries a given
member's ticker. -/
theorem filter_ticker_length_one (events : List EventRecord) (e : EventRecord)
    (he : e ∈ events) (h : (events.map (·.event_ticker)).Nodup) :
    (events.filter (fun x => x.event_ticker == e.event_ticker)).length = 1 := by
  induction events with
  | nil => cases he
  | cons a l ih =>
    rw [List.map_cons, List.nodup_cons] at h
    rcases List.mem_cons.mp he with rfl | he2
    · rw [List.filter_cons_of_pos (by simp)]
      have hnil : l.filter (fun x => x.event_ticker == e.event_ticker) = [] := by
        rw [List.filter_eq_nil_iff]
        intro x hx
        simp only [beq_eq_false_iff_ne, ne_eq, Bool.not_eq_true]
        intro hx2
        exact h.1 (hx2 ▸ List.mem_map_of_mem (·.event_ticker) hx)
      rw [hnil]
      rfl
    · rw [List.filter_cons_of_neg ?_, ih he2 h.2]
      simp only [beq_eq_false_iff_ne, ne_eq, Bool.not_eq_true]
      intro hEq
      exact h.1 (hEq ▸ List.mem_map_of_mem (·.event_ticker) he2)

/-- A left merge in which every left row has exactly one join partner has one
output row per left row. -/
theorem mergeLeft_length (left right : List Row)
    (h : ∀ l ∈ left, (right.filter (fun r =>
      (colVal l "event_event_ticker").isSome &&
      (colVal r "event_ticker" == colVal l "event_event_ticker"))).length = 1) :
    (mergeLeft left right).length = left.length := by
  induction left with
  | nil => rfl
  | cons a l ih =>
    have ha := h a (List.mem_cons_self a l)
    have hl := ih (fun x hx => h x (List.mem_cons_of_mem a hx))
    unfold mergeLeft at hl ⊢
    rw [List.flatMap_cons, List.length_append, hl, List.length_cons]
    cases hm : right.filter (fun r =>
        (colVal a "event_event_ticker").isSome &&
        (colVal r "event_ticker" == colVal a "event_event_ticker")) with
    | nil =>
      rw [hm] at ha
      simp at ha
    | cons b bs =>
      rw [hm] at ha
      simp only [List.length_cons] at ha
      have hbs : bs = [] := by
        rw [← List.length_eq_zero]
        omega
      subst hbs
      simp [Nat.add_comm]

/-- `markets_df` has one row per nested market. -/
theorem markets_df_length (events : List EventRecord) :
    (markets_df events).length = sumMarkets events := by
  unfold markets_df sumMarkets
  rw [List.length_flatMap]
  simp only [Function.comp_def, List.length_map]

/-- Claim C3 (amended): for every input whose event tickers are pairwise
distinct and on which the pipeline succeeds (the four reorder columns are
present in the merged frame, so `df[cols]` does not raise), the produced
table has exactly one row per nested market record: its row count is the sum
over all events of the number of nested markets.  Without the distinctness
precondition the left merge back onto the event frame fans rows out, see
`flatten_row_count_fails`. -/
theorem flatten_row_count_distinct (events : List EventRecord) (rows : List Row)
    (h : (events.map (·.event_ticker)).Nodup)
    (hok : flattenEvents events = Except.ok rows) :
    rows.length = sumMarkets events := by
  simp only [flattenEvents] at hok
  split at hok
  · injection hok with h2
    subst h2
    simp only [List.length_map]
    rw [← markets_df_length events]
    apply mergeLeft_length
    intro l hl
    rcases List.mem_flatMap.mp hl with ⟨e, he, hme⟩
    rcases List.mem_map.mp hme with ⟨m, _, rfl⟩
    rw [colVal_marketRow]
    simp only [Option.isSome_some, Bool.true_and]
    unfold events_df
    rw [List.filter_map, List.length_map]
    have : ∀ x : EventRecord,
        (colVal (eventRow x) "event_ticker" == some e.event_ticker) =
          (x.event_ticker == e.event_ticker) := by
      intro x
      rw [colVal_eventRow]
      rfl
    simp only [Function.comp_def, this]
    exact filter_ticker_length_one events e he h
  · exact Except.noConfusion hok

/-- Two events sharing the ticker `A`, one with a single market and one with
none, both frames carrying the four reorder columns so the program reaches
the row-count question without raising: the merge fans the single market row
out to two output rows. -/
def exDupEvents : List EventRecord :=
  [⟨"A", "S", "T", [("sub_title", some "st")],
    [⟨[("ticker", some "M1"), ("status", some "active"),
       ("rules_primary", some "r1"), ("rules_secondary", some "r2")]⟩]⟩,
   ⟨"A", "S2", "T2", [("sub_title", some "st2")], []⟩]

/-- Claim C3 as stated is false on the code: on `exDupEvents` the pipeline
succeeds and the flattened table has 2 rows while the input holds 1 market
record in total. -/
theorem flatten_row_count_fails :
    (flattenEvents exDupEvents).map List.length = Except.ok 2 ∧
    sumMarkets exDupEvents = 1 ∧ (2 : Nat) ≠ 1 := by
  decide

/-- Concrete distinct-ticker input carrying the four reorder columns, for the
C3 witness. -/
def exCountEvents : List EventRecord :=
  [⟨"A", "S", "T", [("sub_title", some "st")],
    [⟨[("ticker", some "M1"), ("status", some "active"),
       ("rules_primary", some "r1"), ("rules_secondary", some "r2")]⟩,
     ⟨[("ticker", some "M2"), ("status", some "settled"),
       ("rules_primary", some "r3"), ("rules_secondary", some "r4")]⟩]⟩]

/-- Claim C3 witness: on `exCountEvents` the pipeline succeeds and the
amended row-count law evaluates as stated. -/
theorem flatten_row_count_distinct_witness :
    (rowsOf (flattenEvents exCountEvents)).length = sumMarkets exCountEvents :=
  flatten_row_count_distinct exCountEvents (rowsOf (flattenEvents exCountEvents))
    (by decide) (by decide)

/-- Claim C8: no column of any produced flattened row has a name beginning
with the custom-strike pattern `market_custom_strike`. -/
theorem custom_strike_columns_absent (events : List EventRecord) (rows : List Row)
    (hok : flattenEvents events = Except.ok rows) (r : Row) (hr : r ∈ rows)
    (p : String × Option String) (hp : p ∈ r) :
    strStarts p.1 "market_custom_strike" = false := by
  simp only [flattenEvents] at hok
  split at hok
  · injection hok with h2
    subst h2
    rcases List.mem_map.mp hr with ⟨r4, hr4, rfl⟩
    rcases List.mem_map.mp hr4 with ⟨r3, hr3, rfl⟩
    rcases List.mem_map.mp hr3 with ⟨r2, _, rfl⟩
    rcases List.mem_append.mp hp with hp4 | hp4
    · have hp3 := (List.mem_filter.mp hp4).1
      have hcond := (List.mem_filter.mp hp3).2
      simpa using hcond
    · have hcol : p = ("market_status_change_time", none) := by simpa using hp4
      subst hcol
      decide
  · exact Except.noConfusion hok

/-! ### Witnesses: the theorems with hypotheses, applied at concrete inputs -/

/-- Claim C4 witness: the disjointness and ordering statement at the concrete
one-row cycle, whose ticker list is duplicate-free. -/
theorem two_pass_disjoint_witness :
    (∀ t : String,
      (∃ r ∈ exDf, insertCond (get_existing_market_tickers exStore) r ∧ r.market_ticker = t) →
        ¬ ∃ r ∈ exDf, closureCond (get_existing_market_tickers exStore)
            (get_market_status_map exStore) r ∧ r.market_ticker = t) ∧
    ∃ l1 l2, (reconcile exDf exStore exClock).ops = l1 ++ l2 ∧
      (∀ op ∈ l1, ∃ rows, op = DBOp.append rows) ∧
      (∀ op ∈ l2, ∃ t, op = DBOp.delete t) :=
  two_pass_disjoint exDf exStore exClock (by decide)

/-- Claim C5 witness: the non-persistence statement at the concrete cycle in
which `T1` is closed, whose frame has an empty status-change-time column. -/
theorem stamp_not_persisted_witness :
    (∀ r ∈ exDf, closureCond (get_existing_market_tickers exStore)
        (get_market_status_map exStore) r →
      ∀ s ∈ (reconcile exDf exStore exClock).store, s.market_ticker ≠ some r.market_ticker) ∧
    ∀ s ∈ (reconcile exDf exStore exClock).store,
      s ∈ exStore ∨ s.market_status_change_time = none :=
  stamp_not_persisted exDf exStore exClock (by decide)

/-- Claim C6 witness: the amended propagation statement at a concrete error,
row count, ticker, store, and a column list missing the migrated column. -/
theorem persistence_error_propagates_witness :
    ((append_dataframe 3 (Except.error "disk full")).1 = Except.error "disk full" ∧
      (append_dataframe 3 (Except.error "disk full")).2 ≠ []) ∧
    ((delete_market "T1" exStore (Except.error "disk full")).1 = Except.error "disk full" ∧
      (delete_market "T1" exStore (Except.error "disk full")).2 ≠ []) ∧
    ((ensure_status_change_column ["market_ticker"] (Except.error "disk full")).1 =
        Except.error "disk full" ∧
      (ensure_status_change_column ["market_ticker"] (Except.error "disk full")).2 ≠ []) ∧
    ((ensure_table false (Except.error "disk full")).1 = Except.error "disk full" ∧
      (ensure_table false (Except.error "disk full")).2 = []) ∧
    (∀ o : Except String Unit,
      (append_dataframe 3 o).1 = Except.ok () → o = Except.ok ()) ∧
    (∀ o : Except String Unit, ∀ st2 : Store,
      (delete_market "T1" exStore o).1 = Except.ok st2 → o = Except.ok ()) ∧
    (∀ o : Except String Unit, (ensure_table false o).1 = Except.ok () → o = Except.ok ()) :=
  persistence_error_propagates "disk full" 3 "T1" exStore ["market_ticker"] (by decide)

/-- Claim C7 witness: deleting the absent ticker `TX` from the concrete store
succeeds and returns the store unchanged. -/
theorem delete_nonexistent_noop_witness :
    (delete_market "TX" exStore (Except.ok ())).1 = Except.ok exStore ∧
    ∀ o : Except String Unit, ∀ e, (delete_market "TX" exStore o).1 = Except.error e →
      o = Except.error e :=
  delete_nonexistent_noop "TX" exStore (by decide)

/-- Concrete flattener input for the C8 witness: one event whose market
carries a `custom_strike_x` attribute. -/
def exStrikeEvents : List EventRecord :=
  [⟨"A", "S", "T", [("sub_title", some "st")],
    [⟨[("ticker", some "M1"), ("rules_primary", some "r1"), ("rules_secondary", some "r2"),
       ("custom_strike_x", some "5"), ("status", some "active")]⟩]⟩]

/-- Claim C8 witness: the pipeline succeeds on `exStrikeEvents` and the first
column of the first flattened row does not match the custom-strike pattern. -/
theorem custom_strike_columns_absent_witness :
    strStarts (((rowsOf (flattenEvents exStrikeEvents)).headD []).headD ("", none)).1
      "market_custom_strike" = false :=
  custom_strike_columns_absent exStrikeEvents (rowsOf (flattenEvents exStrikeEvents))
    (by decide) ((rowsOf (flattenEvents exStrikeEvents)).headD []) (by decide)
    (((rowsOf (flattenEvents exStrikeEvents)).headD []).headD ("", none)) (by decide)

/-- Claim C10 witness: the concrete cycle opens no market, so its insert pass
is a no-op and its trace holds no append. -/
theorem zero_opened_no_append_witness :
    (insertPass (get_existing_market_tickers exStore) exDf exStore).store = exStore ∧
    (insertPass (get_existing_market_tickers exStore) exDf exStore).ops = [] ∧
    ∀ rows : List StoreRow, DBOp.append rows ∉ (reconcile exDf exStore exClock).ops :=
  zero_opened_no_append exDf exStore exClock (by decide)

end Kalshi
